import Mathlib

/-!
Verification of the Claude-Code-Remote mirror bridge.

This file gives a shallow embedding of the Telegram mirror-bridge code
(`src/channels/telegram/webhook.js`, `src/channels/telegram/telegram.js`,
`claude-hook-notify.js`) and proves or refutes the frozen claims about it.

JavaScript strings are modelled as `List Char` (one entry per UTF-16 code
unit; every character appearing in the claims is a single BMP code unit).
External effects (the Telegram HTTP API, the tmux injector, the session
file store) are modelled as explicit parameters: an oracle describing the
outcome of each outbound call, and a list of session records standing for
the session directory.
-/

/-! ### Basic string utilities -/

/-- The apostrophe character, built numerically so it can be embedded in
modelled message texts. -/
def apos : Char := Char.ofNat 39

/-- JavaScript `\s` whitespace, restricted to the ASCII whitespace
characters (the source never receives the rare Unicode space code points
that `\s` additionally covers, and no claim depends on them). -/
def isJsWs (c : Char) : Bool :=
  c = ' ' || c = '\t' || c = '\n' || c = '\r' || c = Char.ofNat 11 || c = Char.ofNat 12

/-- ASCII upper-casing, as performed by JavaScript `toUpperCase` on the
alphanumeric tokens handled here. -/
def asciiUpper (c : Char) : Char :=
  if 'a' ≤ c ∧ c ≤ 'z' then Char.ofNat (c.toNat - 32) else c

/-- JavaScript `String.prototype.trim`: strip whitespace from both ends. -/
def trimJs (l : List Char) : List Char :=
  ((l.dropWhile isJsWs).reverse.dropWhile isJsWs).reverse

/-- Decimal digits of a natural number, as produced by JavaScript string
interpolation of a non-negative integer. -/
def natChars (n : Nat) : List Char := Nat.toDigits 10 n

/-- JavaScript `String(x)` for an integral number `x` (decimal, with a
leading minus sign when negative). -/
def intStr (i : Int) : List Char :=
  if i < 0 then '-' :: natChars i.natAbs else natChars i.toNat

/-! ### HTML escaping (`_escapeHtml` in telegram.js / webhook.js)

The source is
`text.replace(/&/g, '&amp;').replace(/</g, '&lt;').replace(/>/g, '&gt;')`:
three sequential global replacements of a single character each.
`replaceChar` models one such global single-character replacement. -/

/-- One global single-character replacement pass, `s.replace(/p/g, r)`. -/
def replaceChar (p : Char) (r : List Char) : List Char → List Char
  | [] => []
  | c :: cs => (if c = p then r else [c]) ++ replaceChar p r cs

/-- `_escapeHtml`: the three chained global replacements of the source. -/
def escapeHtml (l : List Char) : List Char :=
  replaceChar '>' ("&gt;".toList)
    (replaceChar '<' ("&lt;".toList)
      (replaceChar '&' ("&amp;".toList) l))

/-- The per-character expansion performed by `escapeHtml`. -/
def escapeChar (c : Char) : List Char :=
  if c = '&' then "&amp;".toList
  else if c = '<' then "&lt;".toList
  else if c = '>' then "&gt;".toList
  else [c]

/-- Inverse of the escaping: decode the three HTML entities `&amp;`,
`&lt;`, `&gt;` back into `&`, `<`, `>`. This realises the "unescaping the
HTML entities" step of the round-trip claim (the repository itself never
needs to unescape; the decoder is the mathematical inverse the claim
speaks about). -/
def unescapeHtml : List Char → List Char
  | [] => []
  | c :: cs =>
    if c = '&' then
      match cs with
      | 'a' :: 'm' :: 'p' :: ';' :: rest => '&' :: unescapeHtml rest
      | 'l' :: 't' :: ';' :: rest => '<' :: unescapeHtml rest
      | 'g' :: 't' :: ';' :: rest => '>' :: unescapeHtml rest
      | cs' => c :: unescapeHtml cs'
    else c :: unescapeHtml cs

theorem replaceChar_append (p : Char) (r a b : List Char) :
    replaceChar p r (a ++ b) = replaceChar p r a ++ replaceChar p r b := by
  induction a with
  | nil => rfl
  | cons c cs ih => simp [replaceChar, ih, List.append_assoc]

theorem escapeHtml_nil : escapeHtml [] = [] := rfl

theorem escapeHtml_cons (c : Char) (cs : List Char) :
    escapeHtml (c :: cs) = escapeChar c ++ escapeHtml cs := by
  by_cases h1 : c = '&'
  · subst h1
    simp only [escapeHtml, escapeChar, replaceChar, if_pos rfl, replaceChar_append]
    rfl
  · by_cases h2 : c = '<'
    · subst h2
      simp only [escapeHtml, escapeChar, replaceChar, if_neg h1, if_pos rfl,
        replaceChar_append]
      simp [replaceChar]
    · by_cases h3 : c = '>'
      · subst h3
        simp only [escapeHtml, escapeChar, replaceChar, if_neg h1, if_neg h2, if_pos rfl,
          replaceChar_append]
        simp [replaceChar]
      · simp only [escapeHtml, escapeChar, replaceChar, if_neg h1, if_neg h2, if_neg h3,
          replaceChar_append]
        simp [replaceChar, h2, h3]

theorem escapeChar_ne_nil (c : Char) : escapeChar c ≠ [] := by
  unfold escapeChar
  split
  · decide
  · split
    · decide
    · split
      · decide
      · simp

theorem escapeHtml_ne_nil {l : List Char} (h : l ≠ []) : escapeHtml l ≠ [] := by
  cases l with
  | nil => exact absurd rfl h
  | cons c cs =>
    rw [escapeHtml_cons]
    intro hc
    exact escapeChar_ne_nil c (List.append_eq_nil.mp hc).1

theorem unescapeHtml_cons_amp (cs : List Char) :
    unescapeHtml ('&' :: 'a' :: 'm' :: 'p' :: ';' :: cs) = '&' :: unescapeHtml cs := by
  rw [unescapeHtml.eq_def]
  simp

theorem unescapeHtml_cons_lt (cs : List Char) :
    unescapeHtml ('&' :: 'l' :: 't' :: ';' :: cs) = '<' :: unescapeHtml cs := by
  rw [unescapeHtml.eq_def]
  simp

theorem unescapeHtml_cons_gt (cs : List Char) :
    unescapeHtml ('&' :: 'g' :: 't' :: ';' :: cs) = '>' :: unescapeHtml cs := by
  rw [unescapeHtml.eq_def]
  simp

theorem unescapeHtml_cons_of_ne (c : Char) (cs : List Char) (h : c ≠ '&') :
    unescapeHtml (c :: cs) = c :: unescapeHtml cs := by
  rw [unescapeHtml.eq_def]
  simp [h]

/-- The escaping round-trips: decoding the three entities recovers the
original text. -/
theorem unescapeHtml_escapeHtml (l : List Char) : unescapeHtml (escapeHtml l) = l := by
  induction l with
  | nil => rfl
  | cons c cs ih =>
    rw [escapeHtml_cons]
    by_cases h1 : c = '&'
    · subst h1
      simp only [escapeChar, if_pos rfl]
      show unescapeHtml ('&' :: 'a' :: 'm' :: 'p' :: ';' :: escapeHtml cs) = _
      rw [unescapeHtml_cons_amp, ih]
    · by_cases h2 : c = '<'
      · subst h2
        simp only [escapeChar, if_neg h1, if_pos rfl]
        show unescapeHtml ('&' :: 'l' :: 't' :: ';' :: escapeHtml cs) = _
        rw [unescapeHtml_cons_lt, ih]
      · by_cases h3 : c = '>'
        · subst h3
          simp only [escapeChar, if_neg h1, if_neg h2, if_pos rfl]
          show unescapeHtml ('&' :: 'g' :: 't' :: ';' :: escapeHtml cs) = _
          rw [unescapeHtml_cons_gt, ih]
        · simp only [escapeChar, if_neg h1, if_neg h2, if_neg h3, List.singleton_append]
          rw [unescapeHtml_cons_of_ne c _ h1, ih]

/-! ### Chunking and the mirror-mode formatter (`_generateTelegramMessages`) -/

/-- The fixed response-chunk budget, `const maxResponsePerMsg = 3800`. -/
def maxResponsePerMsg : Nat := 3800

/-- The chunking loop of `_generateTelegramMessages`:
`for (let i = 0; i < escaped.length; i += 3800) push(escaped.substring(i, i + 3800))`. -/
def chunks3800 (l : List Char) : List (List Char) :=
  match l with
  | [] => []
  | c :: cs => ((c :: cs).take 3800) :: chunks3800 ((c :: cs).drop 3800)
termination_by l.length
decreasing_by simp; omega

/-- The position marker prefixed to chunks 2..N:
the template is `(${k}/${total})\n` followed by the chunk body. -/
def chunkMarker (k total : Nat) : List Char :=
  '(' :: natChars k ++ '/' :: natChars total ++ [')', '\n']

/-- The blank line separating the header from the first chunk body. -/
def newline2 : List Char := ['\n', '\n']

/-- Mark the chunks after the first with their `(k/total)` position
markers, starting at position `k`. The source emits the middle chunks in a
loop and the last chunk in a separate statement with the identical
template, so one uniform traversal reproduces its output. -/
def markAll (total : Nat) (k : Nat) : List (List Char) → List (List Char)
  | [] => []
  | c :: cs => (chunkMarker k total ++ c) :: markAll total (k + 1) cs

/-- Assemble the message list from the header and the chunk list: chunk 1
is `header + blank line + body`; chunks 2..N carry position markers
(`if (responseChunks.length === 1) ... else ...` in the source). -/
def assembleMessages (header : List Char) (chunks : List (List Char)) : List (List Char) :=
  match chunks with
  | [] => []
  | [c] => [header ++ newline2 ++ c]
  | c :: rest => (header ++ newline2 ++ c) :: markAll (rest.length + 1) 2 rest

/-- A notification as consumed by the Telegram channel. Metadata strings
use `[]` for "absent", matching the `|| ''` defaulting in the source. -/
structure Notification where
  ntype : List Char
  project : List Char
  userQuestion : List Char
  claudeResponse : List Char

/-- The header built by `_generateTelegramMessages`: status glyph, escaped
project name and, when a user question is present, an escaped question
preview capped at 300 characters (`userQ.substring(0, 300)`). -/
def headerOf (n : Notification) : List Char :=
  (if n.ntype = "completed".toList then "✅ ".toList else "⏳ ".toList)
    ++ escapeHtml n.project
    ++ (if n.userQuestion ≠ [] then
          "\n\n<b>Q:</b> ".toList ++ escapeHtml (n.userQuestion.take 300)
        else [])

/-- `_generateTelegramMessages`: header-only when there is no response,
otherwise the escaped response is chunked and assembled. -/
def generateTelegramMessages (n : Notification) : List (List Char) :=
  if n.claudeResponse = [] then [headerOf n]
  else assembleMessages (headerOf n) (chunks3800 (escapeHtml n.claudeResponse))

/-- Claim-side reconstruction: strip each `(k/total)` position marker
(which comprises the `(k/total)` text and the newline the template places
after it) from chunks 2..N, concatenating the bodies in ascending order. -/
def stripMarked (total : Nat) (k : Nat) : List (List Char) → List Char
  | [] => []
  | m :: ms => m.drop (chunkMarker k total).length ++ stripMarked total (k + 1) ms

/-- Claim-side reconstruction of the escaped response from the produced
message sequence: drop the header and the blank line from chunk 1, strip
the position markers from chunks 2..N, and concatenate in ascending
order. -/
def reconstructChunks (header : List Char) (msgs : List (List Char)) : List Char :=
  match msgs with
  | [] => []
  | m :: ms => m.drop (header.length + 2) ++ stripMarked (ms.length + 1) 2 ms

theorem chunks3800_nil : chunks3800 [] = [] := by rw [chunks3800]

theorem chunks3800_of_ne_nil {l : List Char} (h : l ≠ []) :
    chunks3800 l = l.take 3800 :: chunks3800 (l.drop 3800) := by
  cases l with
  | nil => exact absurd rfl h
  | cons c cs => rw [chunks3800]

theorem chunks3800_join_fuel (n : Nat) :
    ∀ l : List Char, l.length ≤ n → (chunks3800 l).flatten = l := by
  induction n with
  | zero =>
    intro l hl
    have : l = [] := List.eq_nil_of_length_eq_zero (Nat.le_zero.mp hl)
    subst this
    simp [chunks3800_nil]
  | succ m ih =>
    intro l hl
    cases l with
    | nil => simp [chunks3800_nil]
    | cons c cs =>
      rw [chunks3800_of_ne_nil (by simp), List.flatten_cons,
        ih ((c :: cs).drop 3800) (by simp at hl ⊢; omega)]
      exact List.take_append_drop 3800 (c :: cs)

theorem chunks3800_join (l : List Char) : (chunks3800 l).flatten = l :=
  chunks3800_join_fuel l.length l le_rfl

theorem chunks3800_mem_length_fuel (n : Nat) :
    ∀ l c : List Char, l.length ≤ n → c ∈ chunks3800 l → c.length ≤ 3800 := by
  induction n with
  | zero =>
    intro l c hl h
    have : l = [] := List.eq_nil_of_length_eq_zero (Nat.le_zero.mp hl)
    subst this
    rw [chunks3800_nil] at h
    cases h
  | succ m ih =>
    intro l c hl h
    cases l with
    | nil => rw [chunks3800_nil] at h; cases h
    | cons a as =>
      rw [chunks3800_of_ne_nil (by simp)] at h
      rcases List.mem_cons.mp h with h1 | h2
      · subst h1; simp [List.length_take]
      · exact ih ((a :: as).drop 3800) c (by simp at hl ⊢; omega) h2

theorem chunks3800_mem_length {l c : List Char} (h : c ∈ chunks3800 l) :
    c.length ≤ 3800 :=
  chunks3800_mem_length_fuel l.length l c le_rfl h

theorem chunks3800_eq_single {l : List Char} (h : l ≠ []) (hlen : l.length ≤ 3800) :
    chunks3800 l = [l] := by
  rw [chunks3800_of_ne_nil h, List.take_of_length_le hlen,
    List.drop_eq_nil_of_le hlen, chunks3800_nil]

theorem chunks3800_count (N : Nat) (hN : 0 < N) :
    ∀ l : List Char, (N - 1) * 3800 < l.length → l.length ≤ N * 3800 →
      (chunks3800 l).length = N := by
  induction N with
  | zero => omega
  | succ m ih =>
    intro l hlo hhi
    have hne : l ≠ [] := by
      intro he; subst he; simp at hlo
    rw [chunks3800_of_ne_nil hne]
    cases m with
    | zero =>
      have : l.length ≤ 3800 := by omega
      rw [List.drop_eq_nil_of_le this, chunks3800_nil]
      rfl
    | succ k =>
      have hlen : (l.drop 3800).length = l.length - 3800 := by simp
      have h1 : (k + 1 - 1) * 3800 < (l.drop 3800).length := by
        rw [hlen]; omega
      have h2 : (l.drop 3800).length ≤ (k + 1) * 3800 := by
        rw [hlen]; omega
      have := ih (by omega) (l.drop 3800) h1 h2
      simp [this]

theorem markAll_length (total k : Nat) (cs : List (List Char)) :
    (markAll total k cs).length = cs.length := by
  induction cs generalizing k with
  | nil => rfl
  | cons c cs ih => simp [markAll, ih]

theorem stripMarked_markAll (total : Nat) (cs : List (List Char)) :
    ∀ k, stripMarked total k (markAll total k cs) = cs.flatten := by
  induction cs with
  | nil => intro k; rfl
  | cons c cs ih =>
    intro k
    rw [markAll, stripMarked, List.drop_left' rfl, ih (k + 1), List.flatten_cons]

/-- Stripping the header and the position markers from the assembled
message list recovers the concatenation of the chunk bodies. -/
theorem reconstructChunks_assembleMessages (header : List Char)
    (chunks : List (List Char)) (h : chunks ≠ []) :
    reconstructChunks header (assembleMessages header chunks) = chunks.flatten := by
  match chunks with
  | [c] =>
    show reconstructChunks header [header ++ newline2 ++ c] = _
    rw [reconstructChunks]
    have hd : (header ++ newline2 ++ c).drop (header.length + 2) = c :=
      List.drop_left' (by simp [newline2])
    rw [hd]
    simp [stripMarked]
  | c :: c2 :: cs =>
    show reconstructChunks header
      ((header ++ newline2 ++ c) :: markAll ((c2 :: cs).length + 1) 2 (c2 :: cs)) = _
    rw [reconstructChunks]
    have hd : (header ++ newline2 ++ c).drop (header.length + 2) = c :=
      List.drop_left' (by simp [newline2])
    rw [hd, markAll_length, stripMarked_markAll]
    simp

/-- C2 helper: the full reconstruction equals the escaped response. -/
theorem reconstructChunks_eq_escaped (n : Notification) (h : n.claudeResponse ≠ []) :
    reconstructChunks (headerOf n) (generateTelegramMessages n)
      = escapeHtml n.claudeResponse := by
  rw [generateTelegramMessages, if_neg h,
    reconstructChunks_assembleMessages _ _ (by
      rw [chunks3800_of_ne_nil (escapeHtml_ne_nil h)]
      simp),
    chunks3800_join]

/-- C2: for every notification with a non-empty response text,
concatenating the produced chunks in ascending order — after stripping
the `(i/total)` position markers from chunks 2..N and the header plus
blank line from chunk 1 — and unescaping the HTML entities `&amp;`,
`&lt;`, `&gt;` reproduces the original response text exactly. -/
theorem c2_mirror_round_trip (n : Notification) (h : n.claudeResponse ≠ []) :
    unescapeHtml (reconstructChunks (headerOf n) (generateTelegramMessages n))
      = n.claudeResponse := by
  rw [reconstructChunks_eq_escaped n h, unescapeHtml_escapeHtml]

/-- Witness for C2 at a concrete notification whose response contains all
three escaped characters. -/
theorem c2_mirror_round_trip_witness :
    unescapeHtml (reconstructChunks
        (headerOf ⟨"completed".toList, "proj".toList, "q".toList, "a&b<c>d".toList⟩)
        (generateTelegramMessages
          ⟨"completed".toList, "proj".toList, "q".toList, "a&b<c>d".toList⟩))
      = "a&b<c>d".toList :=
  c2_mirror_round_trip ⟨"completed".toList, "proj".toList, "q".toList, "a&b<c>d".toList⟩
    (by decide)

/-! ### Support lemmas for the chunk-count claims (C3, C4) -/

theorem escapeHtml_replicate_plain (m : Nat) (c : Char)
    (h1 : c ≠ '&') (h2 : c ≠ '<') (h3 : c ≠ '>') :
    escapeHtml (List.replicate m c) = List.replicate m c := by
  induction m with
  | zero => rfl
  | succ k ih =>
    rw [List.replicate_succ, escapeHtml_cons, ih]
    simp [escapeChar, h1, h2, h3]

theorem escapeHtml_length_replicate (m : Nat) (c : Char) :
    (escapeHtml (List.replicate m c)).length = m * (escapeChar c).length := by
  induction m with
  | zero => simp [escapeHtml_nil]
  | succ k ih =>
    rw [List.replicate_succ, escapeHtml_cons]
    simp [ih, Nat.succ_mul]
    omega

theorem assembleMessages_length (header : List Char) (chunks : List (List Char)) :
    (assembleMessages header chunks).length = chunks.length := by
  match chunks with
  | [] => rfl
  | [c] => rfl
  | c :: c2 :: cs =>
    show ((header ++ newline2 ++ c) :: markAll ((c2 :: cs).length + 1) 2 (c2 :: cs)).length = _
    simp [markAll_length]

theorem list_getD_mem {α : Type} [Inhabited α] (l : List α) (j : Nat) (d : α)
    (h : j < l.length) : l.getD j d ∈ l := by
  induction l generalizing j with
  | nil => simp at h
  | cons a as ih =>
    cases j with
    | zero => simp
    | succ k =>
      simp only [List.getD_cons_succ]
      exact List.mem_cons_of_mem a (ih k (by simpa using h))

theorem markAll_getD (cs : List (List Char)) :
    ∀ total k j, j < cs.length →
      (markAll total k cs).getD j [] = chunkMarker (k + j) total ++ cs.getD j [] := by
  induction cs with
  | nil => intro total k j h; simp at h
  | cons c cs ih =>
    intro total k j h
    cases j with
    | zero => simp [markAll]
    | succ m =>
      rw [markAll]
      simp only [List.getD_cons_succ]
      rw [ih total (k + 1) m (by simpa using h)]
      congr 2
      omega

theorem assembleMessages_getD_zero (header : List Char) (chunks : List (List Char))
    (h : chunks ≠ []) :
    (assembleMessages header chunks).getD 0 []
      = header ++ newline2 ++ chunks.getD 0 [] := by
  match chunks with
  | [c] => rfl
  | c :: c2 :: cs => rfl

theorem assembleMessages_getD_succ (header : List Char) (chunks : List (List Char))
    (j : Nat) (h : j + 1 < chunks.length) :
    (assembleMessages header chunks).getD (j + 1) []
      = chunkMarker (j + 2) chunks.length ++ chunks.getD (j + 1) [] := by
  match chunks with
  | [] => simp at h
  | [c] => simp at h
  | c :: c2 :: cs =>
    show (( _ :: markAll ((c2 :: cs).length + 1) 2 (c2 :: cs)).getD (j + 1) []) = _
    simp only [List.getD_cons_succ]
    rw [markAll_getD (c2 :: cs) ((c2 :: cs).length + 1) 2 j (by simpa using h)]
    have : (2 : Nat) + j = j + 2 := by omega
    rw [this]
    rfl


theorem replicate_ne_nil_of_pos {α : Type} {n : Nat} (a : α) (h : 0 < n) :
    List.replicate n a ≠ [] := by
  intro he
  have := congrArg List.length he
  simp only [List.length_replicate, List.length_nil] at this
  omega

theorem chunks3800_replicate_step (k m : Nat) (c : Char)
    (hm : m = 3800 + k) (hk : 0 < k) :
    chunks3800 (List.replicate m c)
      = List.replicate 3800 c :: chunks3800 (List.replicate k c) := by
  subst hm
  rw [chunks3800_of_ne_nil (replicate_ne_nil_of_pos c (by omega)),
    List.take_replicate, List.drop_replicate,
    show min 3800 (3800 + k) = 3800 from by omega,
    show 3800 + k - 3800 = k from by omega]

theorem assembleMessages_three (h a b c : List Char) :
    assembleMessages h [a, b, c]
      = [h ++ newline2 ++ a, chunkMarker 2 3 ++ b, chunkMarker 3 3 ++ c] := by
  rw [assembleMessages.eq_def]
  simp only [List.length_cons, List.length_nil]
  rw [markAll, markAll, markAll]

/-- A notification whose 3799-character response consists solely of `&`
(shorter than the chunk size, but escaping quintuples it). -/
def exC3 : Notification :=
  ⟨"completed".toList, "p".toList, [], List.replicate 3799 '&'⟩

/-- The scenario notification: a 10,000-character response. -/
def exScenario : Notification :=
  ⟨"completed".toList, "demo".toList, [], List.replicate 10000 'a'⟩

/-- C3 counterexample: a response of 3799 characters — strictly shorter
than the 3800-unit chunk size — for which the formatter produces five
messages, not one: the chunk loop runs over the escaped response, and
escaping expands each `&` to `&amp;`. -/
theorem c3_counterexample :
    exC3.claudeResponse.length < 3800 ∧ (generateTelegramMessages exC3).length ≠ 1 := by
  constructor
  · show (List.replicate 3799 '&').length < 3800
    rw [List.length_replicate]
    norm_num
  · rw [generateTelegramMessages,
      if_neg (show ¬ exC3.claudeResponse = [] from
        replicate_ne_nil_of_pos '&' (by norm_num)),
      assembleMessages_length]
    have h5 : (escapeChar '&').length = 5 := by decide
    have hlen : (escapeHtml exC3.claudeResponse).length = 18995 := by
      show (escapeHtml (List.replicate 3799 '&')).length = 18995
      rw [escapeHtml_length_replicate, h5]
    rw [chunks3800_count 5 (by norm_num) _ (by rw [hlen]; norm_num)
      (by rw [hlen]; norm_num)]
    norm_num

/-- C3 (amended): with the chunk-size comparison read against the escaped
response — which is what the source chunks — a response whose escaped form
is shorter than 3800 units yields exactly one message with no position
marker (header-only when the response is empty); and the 10,000-character
scenario yields exactly 3 messages, the last two prefixed `(2/3)` and
`(3/3)`, the first being the header, a blank line and the first body
chunk without a marker. -/
theorem c3_amended :
    (∀ n : Notification, n.claudeResponse = [] →
        generateTelegramMessages n = [headerOf n]) ∧
    (∀ n : Notification, n.claudeResponse ≠ [] →
        (escapeHtml n.claudeResponse).length < 3800 →
        generateTelegramMessages n
          = [headerOf n ++ newline2 ++ escapeHtml n.claudeResponse]) ∧
    (generateTelegramMessages exScenario
      = [headerOf exScenario ++ newline2 ++ List.replicate 3800 'a',
         "(2/3)\n".toList ++ List.replicate 3800 'a',
         "(3/3)\n".toList ++ List.replicate 2400 'a']) := by
  refine ⟨?_, ?_, ?_⟩
  · intro n h
    rw [generateTelegramMessages, if_pos h]
  · intro n h hlen
    rw [generateTelegramMessages, if_neg h,
      chunks3800_eq_single (escapeHtml_ne_nil h) (by omega)]
    rfl
  · rw [generateTelegramMessages,
      if_neg (show ¬ exScenario.claudeResponse = [] from
        replicate_ne_nil_of_pos 'a' (by norm_num))]
    rw [show exScenario.claudeResponse = List.replicate 10000 'a' from rfl,
      escapeHtml_replicate_plain 10000 'a' (by decide) (by decide) (by decide)]
    rw [chunks3800_replicate_step 6200 10000 'a' (by norm_num) (by norm_num),
      chunks3800_replicate_step 2400 6200 'a' (by norm_num) (by norm_num),
      chunks3800_eq_single (replicate_ne_nil_of_pos 'a' (by norm_num))
        (by rw [List.length_replicate]; norm_num)]
    rw [assembleMessages_three]
    have hm2 : chunkMarker 2 3 = "(2/3)\n".toList := by decide
    have hm3 : chunkMarker 3 3 = "(3/3)\n".toList := by decide
    rw [hm2, hm3]

/-- Witness for C3 (amended) at a concrete short response. -/
theorem c3_amended_witness :
    generateTelegramMessages ⟨"completed".toList, "p".toList, [], "hi".toList⟩
      = [headerOf ⟨"completed".toList, "p".toList, [], "hi".toList⟩
          ++ newline2 ++ escapeHtml "hi".toList] :=
  c3_amended.2.1 ⟨"completed".toList, "p".toList, [], "hi".toList⟩
    (by decide) (by decide)

theorem assembleMessages_two (h a b : List Char) :
    assembleMessages h [a, b]
      = [h ++ newline2 ++ a, chunkMarker 2 2 ++ b] := by
  rw [assembleMessages.eq_def]
  simp only [List.length_cons, List.length_nil]
  rw [markAll, markAll]

/-- A notification whose response is 3801 plain characters: one more than
the chunk size. -/
def exC4 : Notification :=
  ⟨"completed".toList, "p".toList, [], List.replicate 3801 'a'⟩

/-- C4 counterexample: a 3801-character response exceeds `1 ×` the chunk
size, yet the formatter produces 2 messages (not exactly `N = 1`), and its
first produced message is longer than 3800 units (header and blank line
ride on top of a full 3800-unit body chunk). -/
theorem c4_counterexample :
    1 * 3800 < exC4.claudeResponse.length ∧
    (generateTelegramMessages exC4).length ≠ 1 ∧
    ∃ m ∈ generateTelegramMessages exC4, 3800 < m.length := by
  have hgen : generateTelegramMessages exC4
      = [headerOf exC4 ++ newline2 ++ List.replicate 3800 'a',
         chunkMarker 2 2 ++ List.replicate 1 'a'] := by
    rw [generateTelegramMessages,
      if_neg (show ¬ exC4.claudeResponse = [] from
        replicate_ne_nil_of_pos 'a' (by norm_num))]
    rw [show exC4.claudeResponse = List.replicate 3801 'a' from rfl,
      escapeHtml_replicate_plain 3801 'a' (by decide) (by decide) (by decide),
      chunks3800_replicate_step 1 3801 'a' (by norm_num) (by norm_num),
      chunks3800_eq_single (replicate_ne_nil_of_pos 'a' (by norm_num))
        (by rw [List.length_replicate]; norm_num),
      assembleMessages_two]
  refine ⟨?_, ?_, ?_⟩
  · show 1 * 3800 < (List.replicate 3801 'a').length
    rw [List.length_replicate]
    norm_num
  · rw [hgen]
    norm_num
  · refine ⟨headerOf exC4 ++ newline2 ++ List.replicate 3800 'a',
      by rw [hgen]; exact List.mem_cons_self _ _, ?_⟩
    have hh : (headerOf exC4).length = 3 := by decide
    simp only [List.length_append, List.length_replicate, hh]
    norm_num [newline2]

/-- C4 (amended): for `N ≥ 1`, when the escaped response length lies in
`((N−1)·3800, N·3800]`, exactly `N` messages are produced; every message
except the first is prefixed by its `(i/total)` position marker; and the
response-chunk portion of each message (the part after the header or the
marker) is at most 3800 units — the full message strings may exceed 3800
by the size of the header or marker. -/
theorem c4_amended (n : Notification) (N : Nat) (hN : 0 < N)
    (hlo : (N - 1) * 3800 < (escapeHtml n.claudeResponse).length)
    (hhi : (escapeHtml n.claudeResponse).length ≤ N * 3800) :
    (generateTelegramMessages n).length = N ∧
    (∃ t, (generateTelegramMessages n).getD 0 [] = headerOf n ++ newline2 ++ t ∧
        t.length ≤ 3800) ∧
    (∀ j, 1 ≤ j → j < N →
      ∃ t, (generateTelegramMessages n).getD j [] = chunkMarker (j + 1) N ++ t ∧
        t.length ≤ 3800) := by
  have hrne : n.claudeResponse ≠ [] := by
    intro he
    rw [he, escapeHtml_nil] at hlo
    simp only [List.length_nil] at hlo
    omega
  have hene : escapeHtml n.claudeResponse ≠ [] := escapeHtml_ne_nil hrne
  have hcne : chunks3800 (escapeHtml n.claudeResponse) ≠ [] := by
    rw [chunks3800_of_ne_nil hene]
    simp
  have hcount : (chunks3800 (escapeHtml n.claudeResponse)).length = N :=
    chunks3800_count N hN _ hlo hhi
  have hgen : generateTelegramMessages n
      = assembleMessages (headerOf n) (chunks3800 (escapeHtml n.claudeResponse)) := by
    rw [generateTelegramMessages, if_neg hrne]
  refine ⟨?_, ?_, ?_⟩
  · rw [hgen, assembleMessages_length, hcount]
  · rw [hgen, assembleMessages_getD_zero _ _ hcne]
    exact ⟨_, rfl,
      chunks3800_mem_length (list_getD_mem _ 0 [] (by rw [hcount]; omega))⟩
  · intro j hj1 hjN
    obtain ⟨j', rfl⟩ : ∃ j', j = j' + 1 := ⟨j - 1, by omega⟩
    rw [hgen, assembleMessages_getD_succ _ _ j' (by rw [hcount]; omega), hcount]
    exact ⟨_, rfl,
      chunks3800_mem_length (list_getD_mem _ (j' + 1) [] (by rw [hcount]; omega))⟩

/-- Witness for C4 (amended) at the 3801-character response with `N = 2`. -/
theorem c4_amended_witness :
    (generateTelegramMessages exC4).length = 2 ∧
    (∃ t, (generateTelegramMessages exC4).getD 0 [] = headerOf exC4 ++ newline2 ++ t ∧
        t.length ≤ 3800) ∧
    (∀ j, 1 ≤ j → j < 2 →
      ∃ t, (generateTelegramMessages exC4).getD j [] = chunkMarker (j + 1) 2 ++ t ∧
        t.length ≤ 3800) := by
  have hesc : escapeHtml exC4.claudeResponse = List.replicate 3801 'a' :=
    escapeHtml_replicate_plain 3801 'a' (by decide) (by decide) (by decide)
  exact c4_amended exC4 2 (by norm_num)
    (by rw [hesc, List.length_replicate]; norm_num)
    (by rw [hesc, List.length_replicate]; norm_num)

/-! ### The webhook router (`webhook.js`)

The handler's external effects are modelled as data: `TgAction.reply` is a
call to `_sendMessage` (carrying the outcome of the underlying HTTP POST,
which `_sendMessage` catches and logs without rethrowing),
`TgAction.inject` is a call to `injector.injectCommand`, and
`TgAction.removeSession` is `_removeSession`. The HTTP send outcome is an
oracle `sendFail : text ↦ Option error`; the injector outcome is an
`Option error`; the session directory is a list of records. -/

structure TgConfig where
  whitelist : List (List Char)
  chatId : Option (List Char)
  groupId : Option (List Char)

structure TgMessage where
  chatId : Int
  userId : Int
  text : List Char

inductive TgAction where
  | reply (chatId : Int) (text : List Char) (sendError : Option (List Char))
  | inject (cmd : List Char) (session : List Char)
  | removeSession (id : List Char)
deriving DecidableEq

/-- A legacy token-mode session record, as read from a session JSON file. -/
structure TgSession where
  id : List Char
  token : List Char
  expiresAt : Int
  tmuxSession : Option (List Char)
deriving DecidableEq

/-- `this.config.chatId || this.config.groupId` (falsy values modelled as
`none`). -/
def configuredChatId (cfg : TgConfig) : Option (List Char) :=
  match cfg.chatId with
  | some c => some c
  | none => cfg.groupId

/-- `_isAuthorized`: whitelist membership of `String(chatId)` or
`String(userId)`; with an empty whitelist, equality of `String(chatId)`
with the configured home chat/group id. -/
def isAuthorizedB (cfg : TgConfig) (userId chatId : Int) : Bool :=
  if cfg.whitelist.contains (intStr chatId) || cfg.whitelist.contains (intStr userId) then
    true
  else if cfg.whitelist.isEmpty then
    match configuredChatId cfg with
    | some home => intStr chatId == home
    | none => false
  else false

/-- `_sendMessage`: one HTTP POST; a failure is caught and logged, never
rethrown, so the caller always receives exactly one completed reply
action whose `sendError` field records the swallowed outcome. -/
def sendMessageModel (sendFail : List Char → Option (List Char)) (chatId : Int)
    (text : List Char) : List TgAction :=
  match sendFail text with
  | some e => [.reply chatId text (some e)]
  | none => [.reply chatId text none]

def unauthorizedText : List Char := "⚠️ You are not authorized to use this bot.".toList

def mirrorFormatText : List Char := "❌ Format: /cmd <your command>".toList

def invalidTokenText : List Char :=
  "❌ Invalid or expired token. Please wait for a new task notification.".toList

def expiredTokenText : List Char :=
  "❌ Token has expired. Please wait for a new task notification.".toList

def tokenFormatText : List Char :=
  "❌ Invalid format. Use:\n`/cmd <TOKEN> <command>`\n\nExample:\n`/cmd ABC12345 analyze this code`".toList

def welcomeMirrorText : List Char :=
  "🤖 *Welcome to Claude Code Remote Bot!*\n\nI".toList ++ [apos] ++
  "ll notify you when Claude completes tasks or needs input.\n\n*Mirror Mode:* Just type your message and it goes directly to Claude.\n\nOr use: `/cmd <your command>`\n\nType /help for more information.".toList

def welcomeTokenText : List Char :=
  "🤖 *Welcome to Claude Code Remote Bot!*\n\nI".toList ++ [apos] ++
  "ll notify you when Claude completes tasks or needs input.\n\nWhen you receive a notification with a token, you can send commands back using:\n`/cmd <TOKEN> <your command>`\n\nType /help for more information.".toList

def helpMirrorText : List Char :=
  "📚 *Claude Code Remote Bot Help*\n\n*Commands:*\n• `/start` - Welcome message\n• `/help` - Show this help\n• `/cmd <command>` - Send command to Claude\n\n*Mirror Mode:*\nJust type any message — it will be sent directly to your Claude session.\n\n*Example:*\n`analyze the performance of this function`".toList

def helpTokenText : List Char :=
  "📚 *Claude Code Remote Bot Help*\n\n*Commands:*\n• `/start` - Welcome message\n• `/help` - Show this help\n• `/cmd <TOKEN> <command>` - Send command to Claude\n\n*Example:*\n`/cmd ABC12345 analyze the performance of this function`\n\n*Tips:*\n• Tokens are case-insensitive\n• Tokens expire after 24 hours\n• You can also just type `TOKEN command` without /cmd".toList

def tokenSuccessText (command sess : List Char) : List Char :=
  "✅ *Command sent successfully*\n\n📝 *Command:* ".toList ++ command ++
  "\n🖥️ *Session:* ".toList ++ sess ++
  "\n\nClaude is now processing your request...".toList

def injectFailedText (e : List Char) : List Char :=
  "❌ *Command execution failed:* ".toList ++ e

/-- `_injectDirect`: inject into the default tmux session, then confirm
with `✅ <command>` on success or report `❌ <error>` when the injector
throws (the error is caught; the chat always sees pass/fail). -/
def injectDirect (sendFail : List Char → Option (List Char))
    (injectErr : Option (List Char)) (defSess : List Char) (chatId : Int)
    (command : List Char) : List TgAction :=
  match injectErr with
  | none =>
    .inject command defSess :: sendMessageModel sendFail chatId ("✅ ".toList ++ command)
  | some e =>
    .inject command defSess :: sendMessageModel sendFail chatId ("❌ ".toList ++ e)

def startsWithSlash (t : List Char) : Bool :=
  match t with
  | '/' :: _ => true
  | _ => false

/-- The case-insensitive literal match of the four-character pattern
`/cmd` against the start of the text, as a regex engine performs it under
the `i` flag: `/` matches only itself, each letter matches its two
cases. -/
def cmdPrefixCI (t : List Char) : Bool :=
  match t with
  | '/' :: c1 :: c2 :: c3 :: _ =>
    (c1 = 'c' || c1 = 'C') && (c2 = 'm' || c2 = 'M') && (c3 = 'd' || c3 = 'D')
  | _ => false

/-- The mirror-mode command regex `^\/cmd\s+(.+)$` with flags `i` and `s`:
a case-insensitive `/cmd` prefix, at least one whitespace character, and a
non-empty remainder (which, thanks to the `s` flag, may span lines). The
greedy `\s+` with backtracking yields the remainder after the longest
whitespace run that still leaves at least one character. -/
def mirrorCmdRest (t : List Char) : Option (List Char) :=
  if cmdPrefixCI t then
    let tail := t.drop 4
    match tail with
    | [] => none
    | c :: _ =>
      if isJsWs c then
        let rest := tail.dropWhile isJsWs
        if rest ≠ [] then some rest
        else if 2 ≤ tail.length then some (tail.drop (tail.length - 1))
        else none
      else none
  else none

/-- `_handleMirrorMessage`: `/cmd <rest>` injects the remainder; any other
text not starting with `/` is injected whole; remaining slash-texts get
the format-error reply. -/
def handleMirrorMessage (sendFail : List Char → Option (List Char))
    (injectErr : Option (List Char)) (defSess : List Char) (chatId : Int)
    (t : List Char) : List TgAction :=
  match mirrorCmdRest t with
  | some rest => injectDirect sendFail injectErr defSess chatId rest
  | none =>
    if startsWithSlash t = false then
      injectDirect sendFail injectErr defSess chatId t
    else
      sendMessageModel sendFail chatId mirrorFormatText

/-- `_findSessionByToken`: scan the session directory for the first record
whose token matches (strict equality against the upper-cased token). -/
def findSessionByToken (store : List TgSession) (token : List Char) : Option TgSession :=
  store.find? (fun s => s.token == token)

/-- `_processTokenCommand`: reject unknown tokens; reject expired tokens
and delete their session record; otherwise inject into the session's tmux
target (`session.tmuxSession || 'default'`) and report pass/fail. -/
def processTokenCommand (sendFail : List Char → Option (List Char))
    (injectErr : Option (List Char)) (store : List TgSession) (now : Int)
    (chatId : Int) (token command : List Char) : List TgAction :=
  match findSessionByToken store token with
  | none => sendMessageModel sendFail chatId invalidTokenText
  | some s =>
    if s.expiresAt < now then
      sendMessageModel sendFail chatId expiredTokenText ++ [.removeSession s.id]
    else
      let sess := s.tmuxSession.getD ("default".toList)
      match injectErr with
      | none =>
        .inject command sess :: sendMessageModel sendFail chatId (tokenSuccessText command sess)
      | some e =>
        .inject command sess :: sendMessageModel sendFail chatId (injectFailedText e)

/-- A character accepted by `[A-Z0-9]` under the `i` flag. -/
def isTokenCharCI (c : Char) : Bool :=
  ('A' ≤ c && c ≤ 'Z') || ('a' ≤ c && c ≤ 'z') || ('0' ≤ c && c ≤ '9')

/-- A character accepted by `[A-Z0-9]` without the `i` flag. -/
def isTokenCharUpper (c : Char) : Bool :=
  ('A' ≤ c && c ≤ 'Z') || ('0' ≤ c && c ≤ '9')

/-- A JavaScript regex line terminator, which `.` never matches without
the `s` flag. -/
def isLineTerm (c : Char) : Bool :=
  c = '\n' || c = '\r' || c = Char.ofNat 8232 || c = Char.ofNat 8233

/-- The token-mode regex `^\/cmd\s+([A-Z0-9]{8})\s+(.+)$` with flag `i`
(no `s`), applied to the trimmed message text: `/cmd`, whitespace, an
8-character alphanumeric token, whitespace, and a non-empty single-line
command. On trimmed input the greedy whitespace runs are forced. -/
def tokenCmdMatch (t : List Char) : Option (List Char × List Char) :=
  if cmdPrefixCI t then
    let tail := t.drop 4
    let ws1 := tail.takeWhile isJsWs
    if ws1.isEmpty then none
    else
      let afterWs := tail.drop ws1.length
      let tok := afterWs.take 8
      if tok.length = 8 && tok.all isTokenCharCI then
        let rest0 := afterWs.drop 8
        let ws2 := rest0.takeWhile isJsWs
        if ws2.isEmpty then none
        else
          let cmd := rest0.drop ws2.length
          if cmd ≠ [] && cmd.all (fun c => !isLineTerm c) then some (tok, cmd)
          else none
      else none
  else none

/-- The tokenless token-mode regex `^([A-Z0-9]{8})\s+(.+)$` (no flags),
applied to the trimmed message text. -/
def tokenDirectMatch (t : List Char) : Option (List Char × List Char) :=
  let tok := t.take 8
  if tok.length = 8 && tok.all isTokenCharUpper then
    let rest0 := t.drop 8
    let ws := rest0.takeWhile isJsWs
    if ws.isEmpty then none
    else
      let cmd := rest0.drop ws.length
      if cmd ≠ [] && cmd.all (fun c => !isLineTerm c) then some (tok, cmd)
      else none
  else none

/-- `_handleTokenMessage`: try `/cmd TOKEN command`, then `TOKEN command`,
else reply with the token-format error. The token is upper-cased before
lookup. -/
def handleTokenMessage (sendFail : List Char → Option (List Char))
    (injectErr : Option (List Char)) (store : List TgSession) (now : Int)
    (chatId : Int) (t : List Char) : List TgAction :=
  match tokenCmdMatch t with
  | some (tok, cmd) =>
    processTokenCommand sendFail injectErr store now chatId (tok.map asciiUpper) cmd
  | none =>
    match tokenDirectMatch t with
    | some (tok, cmd) =>
      processTokenCommand sendFail injectErr store now chatId (tok.map asciiUpper) cmd
    | none => sendMessageModel sendFail chatId tokenFormatText

/-- `_handleMessage`: trim, drop empty texts, authorize, answer `/start`
and `/help`, then dispatch on the operating mode. -/
def handleMessage (cfg : TgConfig) (mirrorMode : Bool)
    (sendFail : List Char → Option (List Char)) (injectErr : Option (List Char))
    (defSess : List Char) (store : List TgSession) (now : Int)
    (msg : TgMessage) : List TgAction :=
  let t := trimJs msg.text
  if t = [] then []
  else if isAuthorizedB cfg msg.userId msg.chatId = false then
    sendMessageModel sendFail msg.chatId unauthorizedText
  else if t = "/start".toList then
    sendMessageModel sendFail msg.chatId
      (if mirrorMode then welcomeMirrorText else welcomeTokenText)
  else if t = "/help".toList then
    sendMessageModel sendFail msg.chatId
      (if mirrorMode then helpMirrorText else helpTokenText)
  else if mirrorMode then
    handleMirrorMessage sendFail injectErr defSess msg.chatId t
  else
    handleTokenMessage sendFail injectErr store now msg.chatId t

/-- `_handleWebhook` on a message update: the message is handled, and
because every failure inside the handler is caught where it occurs
(`_sendMessage` and the injection wrappers catch and log), the handler
never throws and the response is always HTTP 200. -/
def handleWebhookMessage (cfg : TgConfig) (mirrorMode : Bool)
    (sendFail : List Char → Option (List Char)) (injectErr : Option (List Char))
    (defSess : List Char) (store : List TgSession) (now : Int)
    (msg : TgMessage) : Nat × List TgAction :=
  (200, handleMessage cfg mirrorMode sendFail injectErr defSess store now msg)

/-- A router action with the swallowed send outcome erased: what the
handler did, independently of whether the outbound POSTs succeeded. -/
inductive TgActionCore where
  | reply (chatId : Int) (text : List Char)
  | inject (cmd : List Char) (session : List Char)
  | removeSession (id : List Char)
deriving DecidableEq

def stripOutcome : TgAction → TgActionCore
  | .reply c t _ => .reply c t
  | .inject c s => .inject c s
  | .removeSession i => .removeSession i

theorem sendMessageModel_eq (sendFail : List Char → Option (List Char))
    (chatId : Int) (text : List Char) :
    sendMessageModel sendFail chatId text
      = [TgAction.reply chatId text (sendFail text)] := by
  unfold sendMessageModel
  cases h : sendFail text <;> simp

/-- An unauthorized sender: empty whitelist, no configured home chat. -/
def cfgNone : TgConfig := ⟨[], none, none⟩

/-- C1 counterexample: a message whose text is empty (after trimming) from
an unauthorized sender is dropped before the authorization check ever
runs, so no warning reply is sent — the claim promises a warning for every
unauthorized inbound message. -/
theorem c1_counterexample :
    isAuthorizedB cfgNone 6 5 = false ∧
    handleMessage cfgNone true (fun _ => none) none ("claude-code".toList) [] 0
      ⟨5, 6, []⟩ = [] := by
  constructor
  · decide
  · rfl

/-- C1 (amended): for every inbound message whose trimmed text is
non-empty, whose sender's userId and chatId are both absent from the
whitelist and, when the whitelist is empty, whose chatId differs from the
configured home chat identifier, the router sends exactly the fixed
warning reply, stops, and never invokes the terminal injector. -/
theorem c1_amended (cfg : TgConfig) (mirrorMode : Bool)
    (sendFail : List Char → Option (List Char)) (injectErr : Option (List Char))
    (defSess : List Char) (store : List TgSession) (now : Int) (msg : TgMessage)
    (hne : trimJs msg.text ≠ [])
    (hc : cfg.whitelist.contains (intStr msg.chatId) = false)
    (hu : cfg.whitelist.contains (intStr msg.userId) = false)
    (hh : cfg.whitelist = [] →
      ∀ home, configuredChatId cfg = some home → intStr msg.chatId ≠ home) :
    handleMessage cfg mirrorMode sendFail injectErr defSess store now msg
      = [TgAction.reply msg.chatId unauthorizedText (sendFail unauthorizedText)] ∧
    ∀ a ∈ handleMessage cfg mirrorMode sendFail injectErr defSess store now msg,
      ∀ cmd sess, a ≠ TgAction.inject cmd sess := by
  have hauth : isAuthorizedB cfg msg.userId msg.chatId = false := by
    unfold isAuthorizedB
    rw [hc, hu]
    simp only [Bool.or_self, Bool.false_eq_true, if_false]
    cases he : cfg.whitelist.isEmpty with
    | false => simp
    | true =>
      simp only [if_true]
      cases hcc : configuredChatId cfg with
      | none => rfl
      | some home =>
        simpa using hh (List.isEmpty_iff.mp he) home hcc
  have hmain : handleMessage cfg mirrorMode sendFail injectErr defSess store now msg
      = [TgAction.reply msg.chatId unauthorizedText (sendFail unauthorizedText)] := by
    unfold handleMessage
    rw [if_neg hne, if_pos hauth, sendMessageModel_eq]
  refine ⟨hmain, ?_⟩
  intro a ha cmd sess
  rw [hmain] at ha
  rcases List.mem_singleton.mp ha with rfl
  simp

/-- Witness for C1 (amended): a sender outside a non-empty whitelist,
even though its chatId equals the configured chat id (the home-chat
exception applies only to an empty whitelist). -/
theorem c1_amended_witness :
    handleMessage ⟨["9".toList], some ("5".toList), none⟩ true (fun _ => none) none
      ("claude-code".toList) [] 0 ⟨5, 6, "hello".toList⟩
      = [TgAction.reply 5 unauthorizedText none] :=
  (c1_amended ⟨["9".toList], some ("5".toList), none⟩ true (fun _ => none) none
    ("claude-code".toList) [] 0 ⟨5, 6, "hello".toList⟩
    (by decide) (by decide) (by decide)
    (by intro h; exact absurd h (by decide))).1

theorem injectDirect_head (sendFail : List Char → Option (List Char))
    (injectErr : Option (List Char)) (defSess : List Char) (chatId : Int)
    (command : List Char) :
    (injectDirect sendFail injectErr defSess chatId command).head?
      = some (TgAction.inject command defSess) := by
  cases injectErr <;> rfl

theorem dropWhile_ws_append (w rest : List Char)
    (hwAll : ∀ c ∈ w, isJsWs c = true)
    (hrHead : ∀ r, rest.head? = some r → isJsWs r = false) :
    (w ++ rest).dropWhile isJsWs = rest := by
  induction w with
  | nil =>
    cases rest with
    | nil => rfl
    | cons r rs =>
      simp only [List.nil_append]
      rw [List.dropWhile_cons_of_neg]
      simp [hrHead r rfl]
  | cons a as ih =>
    simp only [List.cons_append]
    rw [List.dropWhile_cons_of_pos (hwAll a (by simp))]
    exact ih fun c hc => hwAll c (by simp [hc])

theorem mirrorCmdRest_complete (c1 c2 c3 : Char) (w rest : List Char)
    (h1 : c1 = 'c' ∨ c1 = 'C') (h2 : c2 = 'm' ∨ c2 = 'M') (h3 : c3 = 'd' ∨ c3 = 'D')
    (hw : w ≠ []) (hwAll : ∀ c ∈ w, isJsWs c = true)
    (hrne : rest ≠ []) (hrHead : ∀ r, rest.head? = some r → isJsWs r = false) :
    mirrorCmdRest ('/' :: c1 :: c2 :: c3 :: (w ++ rest)) = some rest := by
  obtain ⟨wc, ws, rfl⟩ : ∃ wc ws, w = wc :: ws := by
    cases w with
    | nil => exact absurd rfl hw
    | cons a b => exact ⟨a, b, rfl⟩
  have hpre : cmdPrefixCI ('/' :: c1 :: c2 :: c3 :: wc :: (ws ++ rest)) = true := by
    rcases h1 with rfl | rfl <;> rcases h2 with rfl | rfl <;> rcases h3 with rfl | rfl <;>
      simp [cmdPrefixCI]
  have hwc : isJsWs wc = true := hwAll wc (by simp)
  have hdw : (wc :: (ws ++ rest)).dropWhile isJsWs = rest := by
    rw [← List.cons_append]
    exact dropWhile_ws_append (wc :: ws) rest hwAll hrHead
  unfold mirrorCmdRest
  simp only [List.cons_append]
  simp only [hpre, if_true, List.drop_succ_cons, List.drop_zero]
  simp only [hwc, if_true, hdw, hrne]
  simp [hrne]

theorem cmdPrefixCI_eq_false_of_not_slash (t : List Char)
    (h : startsWithSlash t = false) : cmdPrefixCI t = false := by
  cases t with
  | nil => rfl
  | cons c cs =>
    have hc : c ≠ '/' := by
      intro h'
      subst h'
      simp [startsWithSlash] at h
    rw [cmdPrefixCI.eq_def]
    split <;> simp_all

theorem mirrorCmdRest_none_of_not_slash (t : List Char)
    (h : startsWithSlash t = false) : mirrorCmdRest t = none := by
  unfold mirrorCmdRest
  rw [cmdPrefixCI_eq_false_of_not_slash t h]
  simp

/-- C5: routing of authorized mirror-mode messages. (a) A message matching
the case-insensitive `/cmd` prefix followed by whitespace has the
remainder (which may span lines) injected as the terminal command; (b) a
message not starting with `/` is injected whole; (c) any other
slash-message (other than `/start` and `/help`, answered earlier) gets the
format-error reply and the injector is not invoked. -/
theorem c5_mirror_routing (cfg : TgConfig)
    (sendFail : List Char → Option (List Char)) (injectErr : Option (List Char))
    (defSess : List Char) (store : List TgSession) (now : Int) (msg : TgMessage)
    (t : List Char) (ht : trimJs msg.text = t)
    (hauth : isAuthorizedB cfg msg.userId msg.chatId = true) :
    (∀ c1 c2 c3 w rest,
      t = '/' :: c1 :: c2 :: c3 :: (w ++ rest) →
      (c1 = 'c' ∨ c1 = 'C') → (c2 = 'm' ∨ c2 = 'M') → (c3 = 'd' ∨ c3 = 'D') →
      w ≠ [] → (∀ c ∈ w, isJsWs c = true) →
      rest ≠ [] → (∀ r, rest.head? = some r → isJsWs r = false) →
      handleMessage cfg true sendFail injectErr defSess store now msg
        = injectDirect sendFail injectErr defSess msg.chatId rest ∧
      (handleMessage cfg true sendFail injectErr defSess store now msg).head?
        = some (TgAction.inject rest defSess)) ∧
    (t ≠ [] → startsWithSlash t = false →
      handleMessage cfg true sendFail injectErr defSess store now msg
        = injectDirect sendFail injectErr defSess msg.chatId t ∧
      (handleMessage cfg true sendFail injectErr defSess store now msg).head?
        = some (TgAction.inject t defSess)) ∧
    (startsWithSlash t = true → t ≠ "/start".toList → t ≠ "/help".toList →
      mirrorCmdRest t = none →
      handleMessage cfg true sendFail injectErr defSess store now msg
        = [TgAction.reply msg.chatId mirrorFormatText (sendFail mirrorFormatText)] ∧
      ∀ a ∈ handleMessage cfg true sendFail injectErr defSess store now msg,
        ∀ cmd sess, a ≠ TgAction.inject cmd sess) := by
  have hauth' : ¬ isAuthorizedB cfg msg.userId msg.chatId = false := by
    simp [hauth]
  have hstart : "/start".toList = ['/', 's', 't', 'a', 'r', 't'] := rfl
  have hhelp : "/help".toList = ['/', 'h', 'e', 'l', 'p'] := rfl
  refine ⟨?_, ?_, ?_⟩
  · intro c1 c2 c3 w rest heq h1 h2 h3 hw hwAll hrne hrHead
    have htne : t ≠ [] := by rw [heq]; simp
    have hts : t ≠ "/start".toList := by
      intro h'
      rw [h', hstart] at heq
      simp only [List.cons.injEq] at heq
      obtain ⟨-, hc1, -⟩ := heq
      rcases h1 with rfl | rfl <;> exact absurd hc1 (by decide)
    have hth : t ≠ "/help".toList := by
      intro h'
      rw [h', hhelp] at heq
      simp only [List.cons.injEq] at heq
      obtain ⟨-, hc1, -⟩ := heq
      rcases h1 with rfl | rfl <;> exact absurd hc1 (by decide)
    have hsome : mirrorCmdRest t = some rest := by
      rw [heq]
      exact mirrorCmdRest_complete c1 c2 c3 w rest h1 h2 h3 hw hwAll hrne hrHead
    have hmain : handleMessage cfg true sendFail injectErr defSess store now msg
        = injectDirect sendFail injectErr defSess msg.chatId rest := by
      simp only [handleMessage, ht]
      rw [if_neg htne, if_neg hauth', if_neg hts, if_neg hth]
      simp only [if_true]
      simp only [handleMirrorMessage, hsome]
    exact ⟨hmain, by rw [hmain]; exact injectDirect_head _ _ _ _ _⟩
  · intro htne hslash
    have hnone : mirrorCmdRest t = none := mirrorCmdRest_none_of_not_slash t hslash
    have hts : t ≠ "/start".toList := by
      intro h'
      rw [h'] at hslash
      exact absurd hslash (by decide)
    have hth : t ≠ "/help".toList := by
      intro h'
      rw [h'] at hslash
      exact absurd hslash (by decide)
    have hmain : handleMessage cfg true sendFail injectErr defSess store now msg
        = injectDirect sendFail injectErr defSess msg.chatId t := by
      simp only [handleMessage, ht]
      rw [if_neg htne, if_neg hauth', if_neg hts, if_neg hth]
      simp only [if_true]
      simp only [handleMirrorMessage, hnone, hslash]
      simp only [if_true]
    exact ⟨hmain, by rw [hmain]; exact injectDirect_head _ _ _ _ _⟩
  · intro hslash hts hth hnone
    have htne : t ≠ [] := by
      intro h'
      rw [h'] at hslash
      exact absurd hslash (by decide)
    have hmain : handleMessage cfg true sendFail injectErr defSess store now msg
        = [TgAction.reply msg.chatId mirrorFormatText (sendFail mirrorFormatText)] := by
      simp only [handleMessage, ht]
      rw [if_neg htne, if_neg hauth', if_neg hts, if_neg hth]
      simp only [if_true]
      simp only [handleMirrorMessage, hnone]
      rw [if_neg (by simp [hslash]), sendMessageModel_eq]
    refine ⟨hmain, ?_⟩
    intro a ha cmd sess
    rw [hmain] at ha
    rcases List.mem_singleton.mp ha with rfl
    simp

/-- Witness for C5 at the inbound text `/cmd deploy now`. -/
theorem c5_mirror_routing_witness :
    handleMessage ⟨["5".toList], none, none⟩ true (fun _ => none) none
      ("claude-code".toList) [] 0 ⟨5, 5, "/cmd deploy now".toList⟩
      = injectDirect (fun _ => none) none ("claude-code".toList) 5 ("deploy now".toList) ∧
    (handleMessage ⟨["5".toList], none, none⟩ true (fun _ => none) none
      ("claude-code".toList) [] 0 ⟨5, 5, "/cmd deploy now".toList⟩).head?
      = some (TgAction.inject ("deploy now".toList) ("claude-code".toList)) :=
  (c5_mirror_routing ⟨["5".toList], none, none⟩ (fun _ => none) none
    ("claude-code".toList) [] 0 ⟨5, 5, "/cmd deploy now".toList⟩
    ("/cmd deploy now".toList) (by decide) (by decide)).1
    'c' 'm' 'd' [' '] ("deploy now".toList)
    (by decide) (Or.inl rfl) (Or.inl rfl) (Or.inl rfl)
    (by decide) (by decide) (by decide)
    (by
      intro r hr
      rw [show ("deploy now".toList.head?) = some 'd' from rfl] at hr
      cases hr
      decide)

def isRemoveSession : TgAction → Bool
  | TgAction.removeSession _ => true
  | _ => false

/-- C9 counterexample: a valid, unexpired session used successfully — the
command is injected and confirmed, but no session deletion takes place, so
the record is not "deleted on use". -/
theorem c9_counterexample :
    (processTokenCommand (fun _ => none) none
        [⟨"id1".toList, "ABCD1234".toList, 100, none⟩] 50 7
        ("ABCD1234".toList) ("hi".toList)).head?
      = some (TgAction.inject ("hi".toList) ("default".toList)) ∧
    (processTokenCommand (fun _ => none) none
        [⟨"id1".toList, "ABCD1234".toList, 100, none⟩] 50 7
        ("ABCD1234".toList) ("hi".toList)).all (fun a => !isRemoveSession a) = true := by
  constructor
  · decide
  · decide

/-- C9 (amended): in legacy token mode, a command carrying an unknown
token, or a token whose session is past its expiry timestamp, draws a
rejection reply and never reaches the injector; the on-disk session
record is deleted when an expired token is used — but a successful use
does not delete it. -/
theorem c9_amended (sendFail : List Char → Option (List Char))
    (injectErr : Option (List Char)) (store : List TgSession) (now : Int)
    (chatId : Int) (token command : List Char) :
    (findSessionByToken store token = none →
      processTokenCommand sendFail injectErr store now chatId token command
        = [TgAction.reply chatId invalidTokenText (sendFail invalidTokenText)] ∧
      ∀ a ∈ processTokenCommand sendFail injectErr store now chatId token command,
        ∀ cmd sess, a ≠ TgAction.inject cmd sess) ∧
    (∀ s, findSessionByToken store token = some s → s.expiresAt < now →
      processTokenCommand sendFail injectErr store now chatId token command
        = [TgAction.reply chatId expiredTokenText (sendFail expiredTokenText),
           TgAction.removeSession s.id] ∧
      ∀ a ∈ processTokenCommand sendFail injectErr store now chatId token command,
        ∀ cmd sess, a ≠ TgAction.inject cmd sess) ∧
    (∀ s, findSessionByToken store token = some s → ¬ s.expiresAt < now →
      ∀ a ∈ processTokenCommand sendFail injectErr store now chatId token command,
        ∀ sid, a ≠ TgAction.removeSession sid) := by
  refine ⟨?_, ?_, ?_⟩
  · intro hfind
    have hmain : processTokenCommand sendFail injectErr store now chatId token command
        = [TgAction.reply chatId invalidTokenText (sendFail invalidTokenText)] := by
      unfold processTokenCommand
      simp only [hfind]
      rw [sendMessageModel_eq]
    refine ⟨hmain, ?_⟩
    intro a ha cmd sess
    rw [hmain] at ha
    rcases List.mem_singleton.mp ha with rfl
    simp
  · intro s hfind hexp
    have hmain : processTokenCommand sendFail injectErr store now chatId token command
        = [TgAction.reply chatId expiredTokenText (sendFail expiredTokenText),
           TgAction.removeSession s.id] := by
      unfold processTokenCommand
      simp only [hfind]
      rw [if_pos hexp, sendMessageModel_eq]
      rfl
    refine ⟨hmain, ?_⟩
    intro a ha cmd sess
    rw [hmain] at ha
    rcases List.mem_cons.mp ha with rfl | ha2
    · simp
    · rcases List.mem_singleton.mp ha2 with rfl
      simp
  · intro s hfind hexp a ha sid
    unfold processTokenCommand at ha
    simp only [hfind] at ha
    rw [if_neg hexp] at ha
    cases injectErr with
    | none =>
      simp only [sendMessageModel_eq] at ha
      rcases List.mem_cons.mp ha with rfl | ha2
      · simp
      · rcases List.mem_singleton.mp ha2 with rfl
        simp
    | some e =>
      simp only [sendMessageModel_eq] at ha
      rcases List.mem_cons.mp ha with rfl | ha2
      · simp
      · rcases List.mem_singleton.mp ha2 with rfl
        simp

/-- Witness for C9 (amended): an unknown token against an empty session
store. -/
theorem c9_amended_witness :
    processTokenCommand (fun _ => none) none [] 0 7 ("ZZZZ9999".toList) ("x".toList)
      = [TgAction.reply 7 invalidTokenText none] :=
  ((c9_amended (fun _ => none) none [] 0 7 ("ZZZZ9999".toList) ("x".toList)).1
    (by decide)).1

/-! ### The delivery client (`_sendImpl` in telegram.js)

Each message is POSTed with `parse_mode: 'HTML'`; if that throws and the
platform's error description contains the string `can't parse entities`,
the identical request data is re-sent once without a parse mode; any other
failure propagates to the outer catch, which stops the loop and makes
`_sendImpl` return `false`. The outcome of each HTTP POST, in the order
the POSTs are issued, is an oracle `Nat → AxiosResult`. -/

inductive AxiosResult where
  | ok
  | fail (desc : Option (List Char))
deriving DecidableEq

/-- The platform error text matched by the fallback condition. -/
def parseErrDesc : List Char := "can".toList ++ [apos] ++ "t parse entities".toList

/-- `String.prototype.includes`: substring containment. -/
def containsSub (pat l : List Char) : Bool :=
  l.tails.any fun s => pat.isPrefixOf s

/-- `htmlError.response?.data?.description?.includes("can't parse entities")`. -/
def isParseEntitiesError : AxiosResult → Bool
  | AxiosResult.ok => false
  | AxiosResult.fail none => false
  | AxiosResult.fail (some d) => containsSub parseErrDesc d

/-- What happened to one chunk: the text sent, the outcome of the HTML
attempt, and — when a fallback plain-text send of the same text was
attempted — its outcome. -/
structure ChunkRecord where
  text : List Char
  htmlResult : AxiosResult
  fallback : Option AxiosResult
deriving DecidableEq

/-- A chunk was accepted when the HTML send succeeded or the plain-text
fallback did. -/
def acceptedB (r : ChunkRecord) : Bool :=
  (r.htmlResult == AxiosResult.ok) || (r.fallback == some AxiosResult.ok)

/-- The send loop of `_sendImpl`, returning the per-chunk attempt records
and the boolean result. `k` numbers the HTTP POSTs already issued. -/
def sendImplGo (oracle : Nat → AxiosResult) : Nat → List (List Char) → List ChunkRecord × Bool
  | _, [] => ([], true)
  | k, m :: ms =>
    match oracle k with
    | AxiosResult.ok =>
      let r := sendImplGo oracle (k + 1) ms
      (⟨m, AxiosResult.ok, none⟩ :: r.1, r.2)
    | AxiosResult.fail d =>
      if isParseEntitiesError (AxiosResult.fail d) then
        match oracle (k + 1) with
        | AxiosResult.ok =>
          let r := sendImplGo oracle (k + 2) ms
          (⟨m, AxiosResult.fail d, some AxiosResult.ok⟩ :: r.1, r.2)
        | AxiosResult.fail d2 =>
          ([⟨m, AxiosResult.fail d, some (AxiosResult.fail d2)⟩], false)
      else ([⟨m, AxiosResult.fail d, none⟩], false)

/-- `_sendImpl` on its prepared message list. -/
def sendImpl (oracle : Nat → AxiosResult) (msgs : List (List Char)) :
    List ChunkRecord × Bool :=
  sendImplGo oracle 0 msgs

theorem sendImplGo_spec (oracle : Nat → AxiosResult) :
    ∀ (msgs : List (List Char)) (k : Nat),
      (∀ r ∈ (sendImplGo oracle k msgs).1,
        r.fallback.isSome = isParseEntitiesError r.htmlResult) ∧
      ((sendImplGo oracle k msgs).2 = true ↔
        ((sendImplGo oracle k msgs).1.map ChunkRecord.text = msgs ∧
         ∀ r ∈ (sendImplGo oracle k msgs).1, acceptedB r = true)) := by
  intro msgs
  induction msgs with
  | nil =>
    intro k
    constructor
    · intro r hr
      simp [sendImplGo] at hr
    · simp [sendImplGo]
  | cons m ms ih =>
    intro k
    obtain ⟨ih1, ih2⟩ := ih (k + 1)
    obtain ⟨ih1', ih2'⟩ := ih (k + 2)
    unfold sendImplGo
    cases ho : oracle k with
    | ok =>
      simp only
      constructor
      · intro r hr
        rcases List.mem_cons.mp hr with rfl | hr2
        · rfl
        · exact ih1 r hr2
      · simp only [List.map_cons, List.mem_cons]
        rw [ih2]
        constructor
        · rintro ⟨hmap, hacc⟩
          refine ⟨by rw [hmap], ?_⟩
          intro r hr
          rcases hr with rfl | hr2
          · rfl
          · exact hacc r hr2
        · rintro ⟨hmap, hacc⟩
          refine ⟨by simpa using hmap, ?_⟩
          intro r hr
          exact hacc r (Or.inr hr)
    | fail d =>
      cases hpe : isParseEntitiesError (AxiosResult.fail d) with
      | false =>
        simp only [hpe, Bool.false_eq_true, if_false]
        constructor
        · intro r hr
          rcases List.mem_singleton.mp hr with rfl
          simp [hpe]
        · constructor
          · intro h
            simp at h
          · rintro ⟨hmap, hacc⟩
            have := hacc _ (List.mem_singleton_self _)
            simp [acceptedB] at this
      | true =>
        simp only [hpe, if_true]
        cases ho2 : oracle (k + 1) with
        | ok =>
          simp only
          constructor
          · intro r hr
            rcases List.mem_cons.mp hr with rfl | hr2
            · simp [hpe]
            · exact ih1' r hr2
          · simp only [List.map_cons, List.mem_cons]
            rw [ih2']
            constructor
            · rintro ⟨hmap, hacc⟩
              refine ⟨by rw [hmap], ?_⟩
              intro r hr
              rcases hr with rfl | hr2
              · rfl
              · exact hacc r hr2
            · rintro ⟨hmap, hacc⟩
              refine ⟨by simpa using hmap, ?_⟩
              intro r hr
              exact hacc r (Or.inr hr)
        | fail d2 =>
          simp only
          constructor
          · intro r hr
            rcases List.mem_singleton.mp hr with rfl
            simp [hpe]
          · constructor
            · intro h
              simp at h
            · rintro ⟨hmap, hacc⟩
              have := hacc _ (List.mem_singleton_self _)
              simp [acceptedB] at this

/-- C6: for every chunk processed by the delivery client, the HTML send is
attempted first; exactly one plain-text fallback of the same text is
attempted if and only if the HTML rejection is the unparseable-markup
error; any other failure is not retried (it ends the loop); and `true` is
returned exactly when every chunk of the sequence was accepted by the
HTML send or by its fallback. -/
theorem c6_delivery_fallback (oracle : Nat → AxiosResult) (msgs : List (List Char)) :
    (∀ r ∈ (sendImpl oracle msgs).1,
      r.fallback.isSome = isParseEntitiesError r.htmlResult) ∧
    ((sendImpl oracle msgs).2 = true ↔
      ((sendImpl oracle msgs).1.map ChunkRecord.text = msgs ∧
       ∀ r ∈ (sendImpl oracle msgs).1, acceptedB r = true)) :=
  sendImplGo_spec oracle msgs 0

/-- Witness for C6: two chunks, the first needing the parse-error
fallback, the second sent in rich mode directly. -/
theorem c6_delivery_fallback_witness :
    (∀ r ∈ (sendImpl
        (fun k => if k = 0 then AxiosResult.fail (some parseErrDesc) else AxiosResult.ok)
        ["x".toList, "y".toList]).1,
      r.fallback.isSome = isParseEntitiesError r.htmlResult) ∧
    ((sendImpl
        (fun k => if k = 0 then AxiosResult.fail (some parseErrDesc) else AxiosResult.ok)
        ["x".toList, "y".toList]).2 = true ↔
      ((sendImpl
          (fun k => if k = 0 then AxiosResult.fail (some parseErrDesc) else AxiosResult.ok)
          ["x".toList, "y".toList]).1.map ChunkRecord.text = ["x".toList, "y".toList] ∧
       ∀ r ∈ (sendImpl
          (fun k => if k = 0 then AxiosResult.fail (some parseErrDesc) else AxiosResult.ok)
          ["x".toList, "y".toList]).1, acceptedB r = true)) :=
  c6_delivery_fallback
    (fun k => if k = 0 then AxiosResult.fail (some parseErrDesc) else AxiosResult.ok)
    ["x".toList, "y".toList]

/-! ### Notification dispatch (`sendHookNotification` in claude-hook-notify.js) -/

/-- What a channel's `send` did: returned a boolean, or threw. -/
inductive ChannelOutcome where
  | returns (b : Bool)
  | threw (e : List Char)
deriving DecidableEq

/-- The dispatch loop: every configured channel is tried in order; a
throwing channel is caught and recorded as `success: false`; the loop
never aborts early. -/
def dispatchResults (channels : List (List Char × ChannelOutcome)) :
    List (List Char × Bool) :=
  channels.map fun p =>
    (p.1,
      match p.2 with
      | ChannelOutcome.returns b => b
      | ChannelOutcome.threw _ => false)

/-- `results.filter(r => r.success).length`. -/
def successCount (rs : List (List Char × Bool)) : Nat :=
  (rs.filter fun r => r.2).length

/-- The process exit code: `0` when at least one channel succeeded,
`1` (`process.exit(1)`) when all failed. -/
def hookExitCode (channels : List (List Char × ChannelOutcome)) : Nat :=
  if 0 < successCount (dispatchResults channels) then 0 else 1

theorem successCount_pos_iff (rs : List (List Char × Bool)) :
    0 < successCount rs ↔ ∃ r ∈ rs, r.2 = true := by
  unfold successCount
  rw [List.length_pos]
  constructor
  · intro h
    obtain ⟨x, hx⟩ := List.exists_mem_of_ne_nil _ h
    have hm := List.mem_filter.mp hx
    exact ⟨x, hm.1, by simpa using hm.2⟩
  · rintro ⟨r, hr, hr2⟩
    intro hfe
    have : r ∈ rs.filter fun r => r.2 := List.mem_filter.mpr ⟨hr, by simpa using hr2⟩
    rw [hfe] at this
    cases this

/-- C7: dispatch records exactly one result per enabled channel (throwing
channels are recorded as failed, not skipped, and do not abort the rest);
the process reports success (exit 0) iff at least one channel succeeded,
and overall failure (exit 1) iff every channel failed. -/
theorem c7_dispatch_aggregation (channels : List (List Char × ChannelOutcome)) :
    (dispatchResults channels).map Prod.fst = channels.map Prod.fst ∧
    (hookExitCode channels = 0 ↔ ∃ r ∈ dispatchResults channels, r.2 = true) ∧
    (hookExitCode channels = 1 ↔ ∀ r ∈ dispatchResults channels, r.2 = false) := by
  refine ⟨?_, ?_, ?_⟩
  · simp [dispatchResults]
  · unfold hookExitCode
    constructor
    · intro h
      by_cases hp : 0 < successCount (dispatchResults channels)
      · exact (successCount_pos_iff _).mp hp
      · rw [if_neg hp] at h
        cases h
    · intro hex
      rw [if_pos ((successCount_pos_iff _).mpr hex)]
  · unfold hookExitCode
    constructor
    · intro h r hr
      by_cases hp : 0 < successCount (dispatchResults channels)
      · rw [if_pos hp] at h
        cases h
      · cases hr2 : r.2 with
        | false => rfl
        | true => exact absurd ((successCount_pos_iff _).mpr ⟨r, hr, hr2⟩) hp
    · intro hall
      rw [if_neg]
      intro hp
      obtain ⟨r, hr, hr2⟩ := (successCount_pos_iff _).mp hp
      rw [hall r hr] at hr2
      cases hr2

/-- Witness for C7: a succeeding desktop channel next to a throwing
Telegram channel — exit 0 with both channels recorded. -/
theorem c7_dispatch_aggregation_witness :
    (dispatchResults [("Desktop".toList, ChannelOutcome.returns true),
        ("Telegram".toList, ChannelOutcome.threw ("boom".toList))]).map Prod.fst
      = [("Desktop".toList, ChannelOutcome.returns true),
         ("Telegram".toList, ChannelOutcome.threw ("boom".toList))].map Prod.fst ∧
    (hookExitCode [("Desktop".toList, ChannelOutcome.returns true),
        ("Telegram".toList, ChannelOutcome.threw ("boom".toList))] = 0 ↔
      ∃ r ∈ dispatchResults [("Desktop".toList, ChannelOutcome.returns true),
        ("Telegram".toList, ChannelOutcome.threw ("boom".toList))], r.2 = true) ∧
    (hookExitCode [("Desktop".toList, ChannelOutcome.returns true),
        ("Telegram".toList, ChannelOutcome.threw ("boom".toList))] = 1 ↔
      ∀ r ∈ dispatchResults [("Desktop".toList, ChannelOutcome.returns true),
        ("Telegram".toList, ChannelOutcome.threw ("boom".toList))], r.2 = false) :=
  c7_dispatch_aggregation [("Desktop".toList, ChannelOutcome.returns true),
    ("Telegram".toList, ChannelOutcome.threw ("boom".toList))]

/-! ### The question preview in the mirror-mode header (C8) -/

/-- A notification whose user question is 301 characters long. -/
def exC8 : Notification :=
  ⟨"completed".toList, "p".toList, List.replicate 301 'a', []⟩

/-- C8 counterexample: the question is truncated (301 > 300) but the
mirror-mode header contains no ellipsis at all — neither the one-character
`…` nor a `...` (the header contains no dot whatsoever). Only the legacy
token-mode formatter appends `...` on truncation. -/
theorem c8_counterexample :
    300 < exC8.userQuestion.length ∧
    ('.' ∉ headerOf exC8) ∧
    ('…' ∉ headerOf exC8) := by
  refine ⟨?_, ?_, ?_⟩
  · show 300 < (List.replicate 301 'a').length
    rw [List.length_replicate]
    norm_num
  · decide
  · decide

/-- C8 (amended): when a user question is present, the mirror-mode header
carries the escaped question preview truncated to a hard cap of exactly
300 characters, with nothing appended after it on truncation; in
particular the header depends only on the first 300 characters of the
question. -/
theorem c8_amended (n : Notification) (h : n.userQuestion ≠ []) :
    headerOf n
      = (if n.ntype = "completed".toList then "✅ ".toList else "⏳ ".toList)
          ++ escapeHtml n.project
          ++ ("\n\n<b>Q:</b> ".toList ++ escapeHtml (n.userQuestion.take 300)) ∧
    headerOf ⟨n.ntype, n.project, n.userQuestion.take 300, n.claudeResponse⟩
      = headerOf n := by
  have htne : n.userQuestion.take 300 ≠ [] := by
    intro he
    rcases List.take_eq_nil_iff.mp he with h300 | hq
    · cases h300
    · exact h hq
  constructor
  · unfold headerOf
    rw [if_pos h]
  · show (if _ = _ then _ else _) ++ escapeHtml n.project
        ++ (if n.userQuestion.take 300 ≠ [] then
              "\n\n<b>Q:</b> ".toList ++ escapeHtml ((n.userQuestion.take 300).take 300)
            else []) = _
    rw [if_pos htne]
    unfold headerOf
    rw [if_pos h, List.take_take]
    norm_num

/-- Witness for C8 (amended) at the 301-character question. -/
theorem c8_amended_witness :
    headerOf exC8
      = (if exC8.ntype = "completed".toList then "✅ ".toList else "⏳ ".toList)
          ++ escapeHtml exC8.project
          ++ ("\n\n<b>Q:</b> ".toList ++ escapeHtml (exC8.userQuestion.take 300)) ∧
    headerOf ⟨exC8.ntype, exC8.project, exC8.userQuestion.take 300, exC8.claudeResponse⟩
      = headerOf exC8 :=
  c8_amended exC8 (replicate_ne_nil_of_pos 'a' (by norm_num))

/-! ### Best-effort replies and the webhook response (C10) -/

theorem stripOutcome_sendMessageModel (f : List Char → Option (List Char))
    (chatId : Int) (text : List Char) :
    (sendMessageModel f chatId text).map stripOutcome
      = [TgActionCore.reply chatId text] := by
  rw [sendMessageModel_eq]
  rfl

theorem stripOutcome_injectDirect (f1 f2 : List Char → Option (List Char))
    (io : Option (List Char)) (ds : List Char) (chatId : Int) (cmd : List Char) :
    (injectDirect f1 io ds chatId cmd).map stripOutcome
      = (injectDirect f2 io ds chatId cmd).map stripOutcome := by
  cases io <;>
    simp only [injectDirect, List.map_cons, stripOutcome_sendMessageModel]

theorem stripOutcome_handleMirrorMessage (f1 f2 : List Char → Option (List Char))
    (io : Option (List Char)) (ds : List Char) (chatId : Int) (t : List Char) :
    (handleMirrorMessage f1 io ds chatId t).map stripOutcome
      = (handleMirrorMessage f2 io ds chatId t).map stripOutcome := by
  unfold handleMirrorMessage
  cases h : mirrorCmdRest t with
  | some rest => exact stripOutcome_injectDirect f1 f2 io ds chatId rest
  | none =>
    by_cases hs : startsWithSlash t = false
    · rw [if_pos hs, if_pos hs]
      exact stripOutcome_injectDirect f1 f2 io ds chatId t
    · rw [if_neg hs, if_neg hs, stripOutcome_sendMessageModel,
        stripOutcome_sendMessageModel]

theorem stripOutcome_processTokenCommand (f1 f2 : List Char → Option (List Char))
    (io : Option (List Char)) (store : List TgSession) (now : Int)
    (chatId : Int) (token command : List Char) :
    (processTokenCommand f1 io store now chatId token command).map stripOutcome
      = (processTokenCommand f2 io store now chatId token command).map stripOutcome := by
  unfold processTokenCommand
  cases h : findSessionByToken store token with
  | none => rw [stripOutcome_sendMessageModel, stripOutcome_sendMessageModel]
  | some s =>
    simp only []
    by_cases hexp : s.expiresAt < now
    · rw [if_pos hexp, if_pos hexp, List.map_append, List.map_append,
        stripOutcome_sendMessageModel, stripOutcome_sendMessageModel]
    · rw [if_neg hexp, if_neg hexp]
      cases io <;>
        simp only [List.map_cons, stripOutcome_sendMessageModel]

theorem stripOutcome_handleTokenMessage (f1 f2 : List Char → Option (List Char))
    (io : Option (List Char)) (store : List TgSession) (now : Int)
    (chatId : Int) (t : List Char) :
    (handleTokenMessage f1 io store now chatId t).map stripOutcome
      = (handleTokenMessage f2 io store now chatId t).map stripOutcome := by
  unfold handleTokenMessage
  cases h1 : tokenCmdMatch t with
  | some p =>
    obtain ⟨tok, cmd⟩ := p
    exact stripOutcome_processTokenCommand f1 f2 io store now chatId (tok.map asciiUpper) cmd
  | none =>
    cases h2 : tokenDirectMatch t with
    | some p =>
      obtain ⟨tok, cmd⟩ := p
      exact stripOutcome_processTokenCommand f1 f2 io store now chatId (tok.map asciiUpper) cmd
    | none => rw [stripOutcome_sendMessageModel, stripOutcome_sendMessageModel]

/-- C10: every reply the router sends is best-effort — the outcome of the
outbound send is swallowed inside `_sendMessage` — so the webhook request
always completes with HTTP 200, and which replies (and injections and
deletions) happen is independent of whether the sends fail: no retry, no
propagation. -/
theorem c10_reply_best_effort (cfg : TgConfig) (mirrorMode : Bool)
    (sendFail1 sendFail2 : List Char → Option (List Char))
    (injectErr : Option (List Char)) (defSess : List Char) (store : List TgSession)
    (now : Int) (msg : TgMessage) :
    (handleWebhookMessage cfg mirrorMode sendFail1 injectErr defSess store now msg).1
      = 200 ∧
    (handleMessage cfg mirrorMode sendFail1 injectErr defSess store now msg).map
        stripOutcome
      = (handleMessage cfg mirrorMode sendFail2 injectErr defSess store now msg).map
        stripOutcome := by
  refine ⟨rfl, ?_⟩
  by_cases h0 : trimJs msg.text = []
  · simp only [handleMessage, if_pos h0]
  · by_cases h1 : isAuthorizedB cfg msg.userId msg.chatId = false
    · simp only [handleMessage, if_neg h0, if_pos h1, stripOutcome_sendMessageModel]
    · by_cases h2 : trimJs msg.text = "/start".toList
      · simp only [handleMessage, if_neg h0, if_neg h1, if_pos h2,
          stripOutcome_sendMessageModel]
      · by_cases h3 : trimJs msg.text = "/help".toList
        · simp only [handleMessage, if_neg h0, if_neg h1, if_neg h2, if_pos h3,
            stripOutcome_sendMessageModel]
        · cases mirrorMode with
          | false =>
            simp only [handleMessage, if_neg h0, if_neg h1, if_neg h2, if_neg h3,
              Bool.false_eq_true, if_false]
            exact stripOutcome_handleTokenMessage sendFail1 sendFail2 injectErr store
              now msg.chatId (trimJs msg.text)
          | true =>
            simp only [handleMessage, if_neg h0, if_neg h1, if_neg h2, if_neg h3,
              if_true]
            exact stripOutcome_handleMirrorMessage sendFail1 sendFail2 injectErr
              defSess msg.chatId (trimJs msg.text)

/-- Witness for C10: a failing and a succeeding send oracle produce the
same stripped action trace, and the webhook status is 200. -/
theorem c10_reply_best_effort_witness :
    (handleWebhookMessage cfgNone true (fun _ => some ("boom".toList)) none
      ("claude-code".toList) [] 0 ⟨5, 6, "hello".toList⟩).1 = 200 ∧
    (handleMessage cfgNone true (fun _ => some ("boom".toList)) none
      ("claude-code".toList) [] 0 ⟨5, 6, "hello".toList⟩).map stripOutcome
      = (handleMessage cfgNone true (fun _ => none) none
        ("claude-code".toList) [] 0 ⟨5, 6, "hello".toList⟩).map stripOutcome :=
  c10_reply_best_effort cfgNone true (fun _ => some ("boom".toList)) (fun _ => none)
    none ("claude-code".toList) [] 0 ⟨5, 6, "hello".toList⟩
